import Mathlib

/-!
# Verification of the LXGW-JB-nerd font-merging pipeline

Shallow embedding of `scripts/merge_fonts.py`: the archive extractor, the
recursive font locator, the merge-script generator (a Python f-string whose
interpolation we model explicitly), the Nerd-Fonts patcher wrapper, the
orchestrator's Regular-variant selection, and the top-level entry point.

External effects (filesystem writes, subprocess exit status, the set of files
a subprocess leaves behind) are modelled by an explicit filesystem state and
by oracle parameters; pure string logic is translated directly from the
source.
-/

/-- The Python exception values that `merge_fonts.py` can raise or observe.
`calledProcessError` is what `subprocess.run(..., check=True)` raises on a
non-zero exit status. -/
inductive Err where
  | nameError (var : String)
  | valueError (msg : String)
  | runtimeError (msg : String)
  | fileNotFoundError (msg : String)
  | calledProcessError
  deriving Repr, DecidableEq

/-- `str(e)` as printed by the top-level handler (quotes around the offending
name in a `NameError` are omitted in the model). -/
def errMsg : Err → String
  | .nameError v => "name " ++ v ++ " is not defined"
  | .valueError m => m
  | .runtimeError m => m
  | .fileNotFoundError m => m
  | .calledProcessError => "Command returned non-zero exit status"

/-! ## String helpers (Python `in`, `str.endswith`, `pathlib.Path.suffix`) -/

/-- Python `needle in hay` substring test, on character lists. -/
def hasInfix (needle : List Char) : List Char → Bool
  | [] => needle.isPrefixOf []
  | c :: t => needle.isPrefixOf (c :: t) || hasInfix needle t

/-- Python `sub in s` on strings. -/
def strContains (s sub : String) : Bool := hasInfix sub.toList s.toList

/-- Python `s.endswith(suffix)`. -/
def strEndsWith (s suf : String) : Bool := suf.toList.isSuffixOf s.toList

/-- Index of the last `.` in a name, if any. -/
def rfindDot : List Char → Option Nat
  | [] => none
  | c :: t =>
    match rfindDot t with
    | some i => some (i + 1)
    | none => if c = '.' then some 0 else none

/-- `pathlib.PurePath.suffix` of a file NAME: the part from the last dot on,
empty unless that dot is neither the first nor the last character. -/
def pathSuffix (s : String) : String :=
  match rfindDot s.toList with
  | none => ""
  | some i =>
    if 0 < i ∧ i < s.toList.length - 1 then String.mk (s.toList.drop i) else ""

/-! ## Glob pattern matching (`fnmatch`-style, `*` wildcard and literals,
the only constructs appearing in the patterns `*.ttf` and `*Nerd*.ttf`). -/

/-- One token of a glob pattern. -/
inductive Tok where
  | star
  | ch (c : Char)
  deriving Repr, DecidableEq

/-- Tokenise a glob pattern. -/
def parseGlob (p : List Char) : List Tok :=
  p.map (fun c => if c = '*' then Tok.star else Tok.ch c)

/-- All suffixes of a character list, longest first. -/
def suffixesOf : List Char → List (List Char)
  | [] => [[]]
  | c :: cs => (c :: cs) :: suffixesOf cs

/-- Match a tokenised glob pattern against a name: a literal consumes one
equal character, `*` lets the rest of the pattern match any suffix. -/
def tokMatch : List Tok → List Char → Bool
  | [], s => s.isEmpty
  | .ch _ :: _, [] => false
  | .ch p :: ps, c :: cs => (p == c) && tokMatch ps cs
  | .star :: ps, s => (suffixesOf s).any (fun t => tokMatch ps t)

/-- Glob match on strings, as used by `Path.glob` / `Path.rglob`. -/
def globMatchStr (pat s : String) : Bool := tokMatch (parseGlob pat.toList) s.toList

/-! ## Filesystem state -/

/-- The observable filesystem and subprocess effects of one run: the set of
regular-file paths, the set of directories, and how many external-tool
subprocesses have been launched. -/
structure FS where
  files : List String
  dirs : List String
  subprocessRuns : Nat
  deriving Repr, DecidableEq

/-- The empty filesystem. -/
def emptyFS : FS := ⟨[], [], 0⟩

/-- Add a path to a path list if absent (idempotent create/overwrite). -/
def insertPath (p : String) (ps : List String) : List String :=
  if p ∈ ps then ps else p :: ps

/-! ## `extract_archive` (merge_fonts.py lines 36-50)

`dest_dir.mkdir(parents=True, exist_ok=True)` runs first; then the dispatch
on the archive file NAME: `.zip` (via `Path.suffix` or `endswith`), then
`.tar.gz` or `.tgz`, else `raise ValueError(...)`.  The members the archive
would yield are an oracle parameter; extraction writes all of them under the
destination directory. -/
def extract_archive (archiveName destDir : String) (members : List String) (fs : FS) :
    Except Err Unit × FS :=
  let fs1 : FS := { fs with dirs := insertPath destDir fs.dirs }
  if pathSuffix archiveName == ".zip" || strEndsWith archiveName ".zip" then
    (.ok (), { fs1 with
      files := members.foldl (fun acc m => insertPath (destDir ++ "/" ++ m) acc) fs1.files })
  else if strEndsWith archiveName ".tar.gz" || strEndsWith archiveName ".tgz" then
    (.ok (), { fs1 with
      files := members.foldl (fun acc m => insertPath (destDir ++ "/" ++ m) acc) fs1.files })
  else
    (.error (.valueError ("Unsupported archive format: " ++ archiveName)), fs1)

/-! ## `find_fonts` (merge_fonts.py lines 52-56)

`list(directory.rglob(pattern))`: recursive search of a directory tree for
the regular files whose NAME matches the glob pattern.  A directory's
contents are encoded as a cons-tree: empty, a leading regular file plus the
remaining entries, or a leading subdirectory (with its own contents) plus
the remaining entries. -/

/-- The contents of one directory. -/
inductive Dir where
  | empty : Dir
  | addFile (name : String) (rest : Dir) : Dir
  | addDir (name : String) (sub : Dir) (rest : Dir) : Dir

/-- All regular-file names anywhere under a directory, in traversal order. -/
def allFiles : Dir → List String
  | .empty => []
  | .addFile n rest => n :: allFiles rest
  | .addDir _ sub rest => allFiles sub ++ allFiles rest

/-- `Path.rglob(pattern)` restricted to regular files: every file name under
the directory, kept when it matches the pattern. -/
def rglob (pat : String) : Dir → List String
  | .empty => []
  | .addFile n rest => (if globMatchStr pat n then [n] else []) ++ rglob pat rest
  | .addDir _ sub rest => rglob pat sub ++ rglob pat rest

/-- `find_fonts(directory, pattern="*.ttf")` = `list(directory.rglob(pattern))`. -/
def find_fonts (directory : Dir) (pattern : String := "*.ttf") : List String :=
  rglob pattern directory

/-! ## `merge_fonts` (merge_fonts.py lines 58-130)

The instruction script handed to fontforge is built as a Python f-string.
An f-string is a sequence of literal fragments and replacement fields; each
replacement field is evaluated, in textual order, in the scope of
`merge_fonts`, which binds only the parameters `lxgw_font`, `jb_font` and
`output_font`.  A field whose head name is unbound raises `NameError` the
moment the string is built.  `Frag.interp` records the head name of the
field expression (`base` for the source field `base.fontname`, `chinese`
for `chinese.fontname`; attribute access resolves the head name first, so
an unbound head fails before any attribute is read). -/

/-- One piece of an f-string: a literal fragment or a replacement field,
identified by the head name of its expression. -/
inductive Frag where
  | lit (s : String)
  | interp (var : String)
  deriving Repr

/-- Build an f-string: fields are looked up in the scope `env`; the leftmost
unbound field name raises `NameError`. -/
def evalFrags : List Frag → (String → Option String) → Except Err String
  | [], _ => .ok ""
  | .lit s :: rest, env => (evalFrags rest env).map (fun r => s ++ r)
  | .interp v :: rest, env =>
    match env v with
    | none => .error (.nameError v)
    | some val => (evalFrags rest env).map (fun r => val ++ r)

/-- The f-string of merge_fonts.py lines 62-111, fragment by fragment.
Every `{...}` of the source becomes a `Frag.interp`; the literal text in
between (including the inner `print(f"...")` calls meant for fontforge) is
kept verbatim. -/
def mergeScriptTemplate : List Frag :=
  [ .lit "\nimport fontforge\nimport sys\n\n# Open the JetBrains Mono font as base (for Latin characters)\nbase = fontforge.open(\"",
    .interp "jb_font",
    .lit "\")\nprint(f\"Opened base font: ",
    .interp "base",
    .lit "\")\n\n# Open LXGW font to copy Chinese characters\nchinese = fontforge.open(\"",
    .interp "lxgw_font",
    .lit "\")\nprint(f\"Opened Chinese font: ",
    .interp "chinese",
    .lit "\")\n\n# Copy Chinese characters (CJK Unified Ideographs and related ranges)\n# Basic CJK: U+4E00 to U+9FFF\n# CJK Extension A: U+3400 to U+4DBF\n# CJK Symbols: U+3000 to U+303F\n",
    .lit "for encoding in range(0x3000, 0x303F + 1):\n    if encoding in chinese:\n        base.selection.select(encoding)\n        chinese.selection.select(encoding)\n        chinese.copy()\n        base.paste()\n\n",
    .lit "for encoding in range(0x3400, 0x4DBF + 1):\n    if encoding in chinese:\n        base.selection.select(encoding)\n        chinese.selection.select(encoding)\n        chinese.copy()\n        base.paste()\n\n",
    .lit "for encoding in range(0x4E00, 0x9FFF + 1):\n    if encoding in chinese:\n        base.selection.select(encoding)\n        chinese.selection.select(encoding)\n        chinese.copy()\n        base.paste()\n\n",
    .lit "# Update font metadata\nbase.familyname = \"LXGW JB\"\nbase.fullname = \"LXGW JB Mono\"\nbase.fontname = \"LXGWJB-Mono\"\n\n# Generate the merged font\noutput_path = \"",
    .interp "output_font",
    .lit "\"\nbase.generate(output_path)\nprint(f\"Generated merged font: ",
    .interp "output_path",
    .lit "\")\n\nbase.close()\nchinese.close()\n" ]

/-- The local scope of `merge_fonts` while the f-string is built: exactly
the three parameters are bound. -/
def mergeScope (lxgw jb output : String) : String → Option String := fun v =>
  if v = "lxgw_font" then some lxgw
  else if v = "jb_font" then some jb
  else if v = "output_font" then some output
  else none

/-- Building `merge_script` (merge_fonts.py line 62). -/
def mergeScriptContent (lxgw jb output : String) : Except Err String :=
  evalFrags mergeScriptTemplate (mergeScope lxgw jb output)

/-- `merge_fonts(lxgw_font, jb_font, output_font)`.  The output font path is
passed as parent directory plus file name so the model can form
`output_font.parent / "merge_temp.py"`.  If the f-string were built, the
script file would be written, fontforge run (its exit status is the oracle
`subprocOk`), and the script file unlinked in a `finally` block before the
result is returned or the subprocess error propagates. -/
def merge_fonts (lxgwFont jbFont outputDir outputName : String) (subprocOk : Bool)
    (fs : FS) : Except Err Unit × FS :=
  match mergeScriptContent lxgwFont jbFont (outputDir ++ "/" ++ outputName) with
  | .error e => (.error e, fs)
  | .ok _script =>
    let scriptPath := outputDir ++ "/merge_temp.py"
    let fs1 : FS := { fs with files := insertPath scriptPath fs.files }
    let fs2 : FS := { fs1 with subprocessRuns := fs1.subprocessRuns + 1 }
    let fs3 : FS := { fs2 with files := fs2.files.erase scriptPath }
    if subprocOk then (.ok (), fs3) else (.error Err.calledProcessError, fs3)

/-! ## `patch_with_nerd_fonts` (merge_fonts.py lines 132-160)

Whether `patcher_dir / "font-patcher"` exists, the patcher's exit status,
and the file names the patcher leaves in the output directory are oracle
parameters; the function's own logic (the existence check, the error it
raises for each failure, the post-run `output_dir.glob("*Nerd*.ttf")` scan
and the choice of the first match) is translated directly. -/
def patch_with_nerd_fonts ( _fontPath patcherDir outputDir : String)
    (patcherExists subprocOk : Bool) (outputFiles : List String) : Except Err String :=
  let patcherScript := patcherDir ++ "/font-patcher"
  if !patcherExists then
    .error (.fileNotFoundError ("Nerd Font patcher not found at " ++ patcherScript))
  else if !subprocOk then
    .error Err.calledProcessError
  else
    match outputFiles.filter (fun f => globMatchStr "*Nerd*.ttf" f) with
    | [] => .error (.runtimeError ("No patched font found in " ++ outputDir))
    | f :: _ => .ok f

/-! ## The orchestrator's Regular-variant selection (merge_fonts.py lines 268-291) -/

/-- A located font file as the orchestrator sees it: its file name and the
name of its parent directory. -/
structure FontFile where
  name : String
  parentName : String
  deriving Repr, DecidableEq

/-- Line 270: `'Regular' in font.name and 'Mono' in font.name`. -/
def lxgwRegularPred (f : FontFile) : Bool :=
  strContains f.name "Regular" && strContains f.name "Mono"

/-- Lines 276-278: `'Regular' in font.name and 'Mono' not in font.parent.name`
and, nested, `font.parent.name == 'ttf'`; only then is the candidate taken
(otherwise the loop moves on). -/
def jbRegularPred (f : FontFile) : Bool :=
  strContains f.name "Regular" && !strContains f.parentName "Mono"
    && f.parentName == "ttf"

/-- Lines 268-288 for one family: first font satisfying the preferred
predicate; otherwise a warning is printed (the `Bool` of the result) and the
first located font is used, `none` when the list is empty. -/
def selectWithFallback (fonts : List FontFile) (pred : FontFile → Bool) :
    Option FontFile × Bool :=
  match fonts.find? pred with
  | some f => (some f, false)
  | none => (fonts.head?, true)

/-- Lines 268-291: resolve both families; if either resolution is `none`,
`RuntimeError("Could not find required fonts for merging")` is raised before
any merging.  On success the two chosen fonts are returned together with the
two printed-a-warning flags. -/
def resolveRegularFonts (lxgwFonts jbFonts : List FontFile) :
    Except Err ((FontFile × Bool) × (FontFile × Bool)) :=
  let l := selectWithFallback lxgwFonts lxgwRegularPred
  let j := selectWithFallback jbFonts jbRegularPred
  match l.1, j.1 with
  | some lf, some jf => .ok ((lf, l.2), (jf, j.2))
  | _, _ => .error (.runtimeError "Could not find required fonts for merging")

/-! ## The entry point (merge_fonts.py lines 316-321) -/

/-- The `if __name__ == "__main__"` block: `main()` runs inside one
`try/except Exception`; success leaves exit code 0 and writes nothing to
stderr, any raised error is printed once to stderr and converted into
`sys.exit(1)`.  The outcome of `main()` is the argument. -/
def entryPoint (mainResult : Except Err Unit) : Nat × Option String :=
  match mainResult with
  | .ok _ => (0, none)
  | .error e => (1, some ("\nError: " ++ errMsg e))

/-! ## Helper lemmas -/

/-- Shared computation: every call of `merge_fonts` fails while building the
f-string, at the leftmost unbound field name `base`, leaving the filesystem
untouched. -/
theorem merge_fonts_run (lx jb od nm : String) (ok : Bool) (fs : FS) :
    merge_fonts lx jb od nm ok fs = (.error (.nameError "base"), fs) := rfl

/-- A path is a member of the list it was just inserted into. -/
theorem mem_insertPath (p : String) (ps : List String) : p ∈ insertPath p ps := by
  unfold insertPath
  split
  · assumption
  · exact List.mem_cons_self p ps

/-- Every element of `suffixesOf s` is a suffix of `s`. -/
theorem suffixesOf_sound {t s : List Char} (h : t ∈ suffixesOf s) : t <:+ s := by
  induction s with
  | nil =>
    simp [suffixesOf] at h
    simp [h]
  | cons c cs ih =>
    simp only [suffixesOf, List.mem_cons] at h
    rcases h with h | h
    · simp [h]
    · exact (ih h).trans (List.suffix_cons c cs)

/-- `tokMatch` on a leading `*`, as an `any` over suffixes. -/
theorem tokMatch_star_eq (ps : List Tok) (s : List Char) :
    tokMatch (.star :: ps) s = (suffixesOf s).any (fun t => tokMatch ps t) := by
  cases s <;> rfl

/-- A pattern starting with `*` matches a name only via some suffix. -/
theorem tokMatch_star {ps : List Tok} {s : List Char}
    (h : tokMatch (.star :: ps) s = true) :
    ∃ t, t <:+ s ∧ tokMatch ps t = true := by
  rw [tokMatch_star_eq, List.any_eq_true] at h
  obtain ⟨t, ht, hm⟩ := h
  exact ⟨t, suffixesOf_sound ht, hm⟩

/-- A pattern starting with a literal matches only names starting with it. -/
theorem tokMatch_ch {c : Char} {ps : List Tok} {s : List Char}
    (h : tokMatch (.ch c :: ps) s = true) :
    ∃ s', s = c :: s' ∧ tokMatch ps s' = true := by
  cases s with
  | nil => simp [tokMatch] at h
  | cons a as =>
    have h' : ((c == a) && tokMatch ps as) = true := h
    rw [Bool.and_eq_true] at h'
    have hc : c = a := by simpa using h'.1
    exact ⟨as, by rw [hc], h'.2⟩

/-- The literal tail `.ttf` of a glob pattern matches only `.ttf` itself. -/
theorem tokMatch_ttf {s : List Char}
    (h : tokMatch [.ch '.', .ch 't', .ch 't', .ch 'f'] s = true) :
    s = ['.', 't', 't', 'f'] := by
  obtain ⟨s1, rfl, h1⟩ := tokMatch_ch h
  obtain ⟨s2, rfl, h2⟩ := tokMatch_ch h1
  obtain ⟨s3, rfl, h3⟩ := tokMatch_ch h2
  obtain ⟨s4, rfl, h4⟩ := tokMatch_ch h3
  have hs : s4 = [] := by
    cases s4 with
    | nil => rfl
    | cons a as => simp [tokMatch] at h4
  simp [hs]

/-- Any name matched by the scan pattern `*Nerd*.ttf` ends in `.ttf`. -/
theorem nerdGlob_ends_ttf {f : String} (h : globMatchStr "*Nerd*.ttf" f = true) :
    strEndsWith f ".ttf" = true := by
  have h' : tokMatch (.star :: .ch 'N' :: .ch 'e' :: .ch 'r' :: .ch 'd' :: .star ::
      .ch '.' :: .ch 't' :: .ch 't' :: .ch 'f' :: []) f.toList = true := h
  obtain ⟨t1, ht1, h1⟩ := tokMatch_star h'
  obtain ⟨t2, rfl, h2⟩ := tokMatch_ch h1
  obtain ⟨t3, rfl, h3⟩ := tokMatch_ch h2
  obtain ⟨t4, rfl, h4⟩ := tokMatch_ch h3
  obtain ⟨t5, rfl, h5⟩ := tokMatch_ch h4
  obtain ⟨t6, ht6, h6⟩ := tokMatch_star h5
  have h7 : t6 = ['.', 't', 't', 'f'] := tokMatch_ttf h6
  have s1 : ['.', 't', 't', 'f'] <:+ t5 := h7 ▸ ht6
  have s2 : t5 <:+ 'N' :: 'e' :: 'r' :: 'd' :: t5 := ⟨['N', 'e', 'r', 'd'], rfl⟩
  have s3 : ['.', 't', 't', 'f'] <:+ f.toList := (s1.trans s2).trans ht1
  simp only [strEndsWith, List.isSuffixOf_iff_suffix]
  exact s3

/-- `Path.suffix` is either empty or a final segment of the name. -/
theorem pathSuffix_cases (s : String) :
    pathSuffix s = "" ∨ ∃ i, pathSuffix s = String.mk (s.toList.drop i) := by
  unfold pathSuffix
  split
  · exact Or.inl rfl
  · split
    · exact Or.inr ⟨_, rfl⟩
    · exact Or.inl rfl

/-- If `Path.suffix` of a name is `.zip`, the name ends in `.zip`. -/
theorem pathSuffix_zip {s : String} (h : pathSuffix s = ".zip") :
    strEndsWith s ".zip" = true := by
  rcases pathSuffix_cases s with h0 | ⟨i, hi⟩
  · rw [h0] at h
    exact absurd h (by decide)
  · rw [hi] at h
    have hd : s.toList.drop i = ['.', 'z', 'i', 'p'] := by
      simpa using congrArg String.data h
    have hs : s.toList.drop i <:+ s.toList := List.drop_suffix i s.toList
    rw [hd] at hs
    simp only [strEndsWith, List.isSuffixOf_iff_suffix]
    exact hs

/-- Contrapositive form used on the first branch of `extract_archive`. -/
theorem pathSuffix_zip_beq_false {s : String} (h : strEndsWith s ".zip" = false) :
    (pathSuffix s == ".zip") = false := by
  cases hb : pathSuffix s == ".zip" with
  | false => rfl
  | true =>
    have he : pathSuffix s = ".zip" := by simpa using hb
    exact absurd (pathSuffix_zip he) (by simp [h])

/-- `rglob` returns exactly the files whose name matches the pattern. -/
theorem rglob_eq_filter (pat : String) (d : Dir) :
    rglob pat d = (allFiles d).filter (fun n => globMatchStr pat n) := by
  induction d with
  | empty => rfl
  | addFile n rest ih =>
    cases h : globMatchStr pat n <;>
      simp [rglob, allFiles, List.filter_cons, ih, h]
  | addDir n sub rest ih1 ih2 =>
    simp [rglob, allFiles, List.filter_append, ih1, ih2]

/-! ## Claim theorems -/

/-- C1: the spec requires the generated instruction content to reference the
supplied donor, base and output paths and to enumerate the three fixed
Unicode ranges; the code cannot deliver it: building the instruction
f-string raises `NameError` on the unbound field head `base` (the template
evaluated at the failing input yields no content at all). -/
theorem merge_script_content_never_generated :
    mergeScriptContent "work/extracts/lxgw/LXGWWenKaiMono-Regular.ttf"
        "work/extracts/jetbrains/fonts/ttf/JetBrainsMono-Regular.ttf"
        "work/merged/LXGWJB-Mono-Regular.ttf"
      = .error (.nameError "base") := rfl

/-- C2: for every pair of input font paths, every output path, every
subprocess oracle and every starting filesystem, `merge_fonts` raises
`NameError` (on the name `base`) while building the instruction-script
string: it fails before writing the temporary script file (the file set is
unchanged) and before invoking the external glyph-editing subprocess (the
subprocess counter is unchanged). -/
theorem merge_fonts_raises_name_error (lx jb od nm : String) (ok : Bool) (fs : FS) :
    (merge_fonts lx jb od nm ok fs).1 = .error (.nameError "base") ∧
    (merge_fonts lx jb od nm ok fs).2.files = fs.files ∧
    (merge_fonts lx jb od nm ok fs).2.subprocessRuns = fs.subprocessRuns := by
  rw [merge_fonts_run]
  exact ⟨rfl, rfl, rfl⟩

/-- C3: whatever the inputs, the subprocess outcome and the starting
filesystem, the temporary merge-instruction file `merge_temp.py` in the
output font's parent directory does not exist after `merge_fonts` returns
or propagates its exception (it was absent before the call and the call
leaves the file set unchanged). -/
theorem merge_temp_absent_after_merge_fonts (lx jb od nm : String) (ok : Bool)
    (fs : FS) (h : (od ++ "/merge_temp.py") ∉ fs.files) :
    (od ++ "/merge_temp.py") ∉ ((merge_fonts lx jb od nm ok fs).2).files := by
  rw [merge_fonts_run]
  exact h

/-- Witness for C3 at a concrete invocation on an empty filesystem. -/
theorem merge_temp_absent_after_merge_fonts_witness :
    ("work/merged" ++ "/merge_temp.py") ∉ emptyFS.files ∧
    ("work/merged" ++ "/merge_temp.py") ∉
      ((merge_fonts "lxgw.ttf" "jb.ttf" "work/merged" "LXGWJB-Mono-Regular.ttf"
        true emptyFS).2).files :=
  ⟨by simp [emptyFS],
   merge_temp_absent_after_merge_fonts "lxgw.ttf" "jb.ttf" "work/merged"
     "LXGWJB-Mono-Regular.ttf" true emptyFS (by simp [emptyFS])⟩

/-- C4 counterexample: `lxgw-wenkai-v1.520.tgz` ends in neither `.zip` nor
`.tar.gz`, yet `extract_archive` raises no unsupported-format error and
extracts it (the `.tgz` disjunct of the dispatch accepts it), refuting
"recognizes exactly two archive formats". -/
theorem extract_archive_tgz_counterexample :
    strEndsWith "lxgw-wenkai-v1.520.tgz" ".zip" = false ∧
    strEndsWith "lxgw-wenkai-v1.520.tgz" ".tar.gz" = false ∧
    (extract_archive "lxgw-wenkai-v1.520.tgz" "work/extracts/lxgw"
        ["LXGWWenKaiMono-Regular.ttf"] emptyFS).1 = .ok () :=
  ⟨by decide, by decide, rfl⟩

/-- C4 (amended): `extract_archive` recognizes exactly the three suffixes
`.zip`, `.tar.gz` and `.tgz`; for every archive name ending in none of
them it fails with the explicit `ValueError` before extraction, creating
the destination directory but writing no file. -/
theorem extract_archive_unsupported_format (name dest : String)
    (members : List String) (fs : FS) (hz : strEndsWith name ".zip" = false)
    (ht : strEndsWith name ".tar.gz" = false)
    (hg : strEndsWith name ".tgz" = false) :
    extract_archive name dest members fs
      = (.error (.valueError ("Unsupported archive format: " ++ name)),
         { fs with dirs := insertPath dest fs.dirs }) := by
  have h1 := pathSuffix_zip_beq_false hz
  simp [extract_archive, h1, hz, ht, hg]

/-- Witness for the amended C4 at the concrete name `font.rar`. -/
theorem extract_archive_unsupported_format_witness :
    strEndsWith "font.rar" ".zip" = false ∧
    strEndsWith "font.rar" ".tar.gz" = false ∧
    strEndsWith "font.rar" ".tgz" = false ∧
    extract_archive "font.rar" "work/extracts/x" ["a.ttf"] emptyFS
      = (.error (.valueError ("Unsupported archive format: " ++ "font.rar")),
         { emptyFS with dirs := insertPath "work/extracts/x" emptyFS.dirs }) :=
  ⟨by decide, by decide, by decide,
   extract_archive_unsupported_format "font.rar" "work/extracts/x" ["a.ttf"]
     emptyFS (by decide) (by decide) (by decide)⟩

/-- C9: the destination directory is created before the archive extension is
inspected, so after the unsupported-format error it exists on disk while no
archive member was written into it (the file set is unchanged). -/
theorem extract_archive_dest_dir_precreated (name dest : String)
    (members : List String) (fs : FS) (hz : strEndsWith name ".zip" = false)
    (ht : strEndsWith name ".tar.gz" = false)
    (hg : strEndsWith name ".tgz" = false) :
    dest ∈ ((extract_archive name dest members fs).2).dirs ∧
    ((extract_archive name dest members fs).2).files = fs.files ∧
    (extract_archive name dest members fs).1
      = .error (.valueError ("Unsupported archive format: " ++ name)) := by
  have h1 := pathSuffix_zip_beq_false hz
  refine ⟨?_, ?_, ?_⟩ <;> simp [extract_archive, h1, hz, ht, hg, mem_insertPath]

/-- Witness for C9 at the concrete name `FontPatcher.7z`. -/
theorem extract_archive_dest_dir_precreated_witness :
    strEndsWith "FontPatcher.7z" ".zip" = false ∧
    strEndsWith "FontPatcher.7z" ".tar.gz" = false ∧
    strEndsWith "FontPatcher.7z" ".tgz" = false ∧
    "work/FontPatcher" ∈
      ((extract_archive "FontPatcher.7z" "work/FontPatcher" [] emptyFS).2).dirs :=
  ⟨by decide, by decide, by decide,
   (extract_archive_dest_dir_precreated "FontPatcher.7z" "work/FontPatcher" []
     emptyFS (by decide) (by decide) (by decide)).1⟩

/-- C5: `patch_with_nerd_fonts` fails with `FileNotFoundError` naming the
expected patcher path when the patcher executable is absent; when the
subprocess succeeds but the output scan finds no `*Nerd*.ttf` file it fails
with the distinct `RuntimeError`; otherwise it returns the first match. -/
theorem patch_with_nerd_fonts_error_contract (fp pd od : String) (ok : Bool)
    (files : List String) :
    patch_with_nerd_fonts fp pd od false ok files
      = .error (.fileNotFoundError
          ("Nerd Font patcher not found at " ++ (pd ++ "/font-patcher"))) ∧
    (files.filter (fun f => globMatchStr "*Nerd*.ttf" f) = [] →
      patch_with_nerd_fonts fp pd od true true files
        = .error (.runtimeError ("No patched font found in " ++ od))) ∧
    (∀ f rest, files.filter (fun f => globMatchStr "*Nerd*.ttf" f) = f :: rest →
      patch_with_nerd_fonts fp pd od true true files = .ok f) := by
  refine ⟨rfl, fun h => ?_, fun f rest h => ?_⟩
  · simp [patch_with_nerd_fonts, h]
  · simp [patch_with_nerd_fonts, h]

/-- Witness for C5: a present patcher returns the matching file, an absent
one fails with the named `FileNotFoundError`. -/
theorem patch_with_nerd_fonts_error_contract_witness :
    patch_with_nerd_fonts "m.ttf" "work/FontPatcher" "work/patched" true true
        ["JetBrainsMono Nerd Font Complete Regular.ttf"]
      = .ok "JetBrainsMono Nerd Font Complete Regular.ttf" ∧
    patch_with_nerd_fonts "m.ttf" "work/FontPatcher" "work/patched" false true
        ["JetBrainsMono Nerd Font Complete Regular.ttf"]
      = .error (.fileNotFoundError
          ("Nerd Font patcher not found at " ++ ("work/FontPatcher" ++ "/font-patcher"))) :=
  ⟨(patch_with_nerd_fonts_error_contract "m.ttf" "work/FontPatcher" "work/patched"
      true ["JetBrainsMono Nerd Font Complete Regular.ttf"]).2.2
      "JetBrainsMono Nerd Font Complete Regular.ttf" [] rfl,
   (patch_with_nerd_fonts_error_contract "m.ttf" "work/FontPatcher" "work/patched"
      true ["JetBrainsMono Nerd Font Complete Regular.ttf"]).1⟩

/-- C10: the post-run scan pattern `*Nerd*.ttf` only matches names ending in
`.ttf`, so when the subprocess succeeds but every file in the output
directory lacks the `.ttf` extension (e.g. `Nerd`-named `.otf` files), the
no-patched-font `RuntimeError` is raised despite the tool's success. -/
theorem patch_scan_requires_ttf (fp pd od : String) (files : List String)
    (h : ∀ f ∈ files, strEndsWith f ".ttf" = false) :
    patch_with_nerd_fonts fp pd od true true files
      = .error (.runtimeError ("No patched font found in " ++ od)) := by
  have hfil : files.filter (fun f => globMatchStr "*Nerd*.ttf" f) = [] := by
    rw [List.filter_eq_nil_iff]
    intro f hf hglob
    exact absurd (nerdGlob_ends_ttf hglob) (by simp [h f hf])
  simp [patch_with_nerd_fonts, hfil]

/-- Witness for C10: a successful run whose only output is a Nerd-named
`.otf` file still fails. -/
theorem patch_scan_requires_ttf_witness :
    (∀ f ∈ ["LXGWJB Mono Nerd Font Complete.otf"], strEndsWith f ".ttf" = false) ∧
    patch_with_nerd_fonts "m.ttf" "work/FontPatcher" "work/patched" true true
        ["LXGWJB Mono Nerd Font Complete.otf"]
      = .error (.runtimeError ("No patched font found in " ++ "work/patched")) :=
  ⟨by decide,
   patch_scan_requires_ttf "m.ttf" "work/FontPatcher" "work/patched"
     ["LXGWJB Mono Nerd Font Complete.otf"] (by decide)⟩

/-- C6: for each family, when the located list is non-empty but no entry
satisfies the preferred Regular heuristic, the orchestrator selects the
first element of the list and prints a warning (the `true` flag) and the
run proceeds (both families non-empty always resolve); when either list is
empty, the run fails with the explicit `RuntimeError` before merging. -/
theorem regular_fallback_and_empty_failure (lx jb : List FontFile) :
    (lx.find? lxgwRegularPred = none → lx ≠ [] →
      selectWithFallback lx lxgwRegularPred = (lx.head?, true)) ∧
    (jb.find? jbRegularPred = none → jb ≠ [] →
      selectWithFallback jb jbRegularPred = (jb.head?, true)) ∧
    ((lx = [] ∨ jb = []) → resolveRegularFonts lx jb
      = .error (.runtimeError "Could not find required fonts for merging")) ∧
    (lx ≠ [] → jb ≠ [] → ∃ r, resolveRegularFonts lx jb = .ok r) := by
  refine ⟨fun h _ => by simp [selectWithFallback, h],
    fun h _ => by simp [selectWithFallback, h], fun h => ?_, fun hl hj => ?_⟩
  · rcases h with rfl | rfl
    · rcases hj : List.find? jbRegularPred jb with _ | f <;>
        simp [resolveRegularFonts, selectWithFallback, hj]
    · rcases hl : List.find? lxgwRegularPred lx with _ | f <;>
      rcases hh : lx.head? with _ | a <;>
        simp [resolveRegularFonts, selectWithFallback, hl, hh]
  · obtain ⟨a, as, rfl⟩ : ∃ a as, lx = a :: as := by
      cases lx with
      | nil => exact absurd rfl hl
      | cons a as => exact ⟨a, as, rfl⟩
    obtain ⟨b, bs, rfl⟩ : ∃ b bs, jb = b :: bs := by
      cases jb with
      | nil => exact absurd rfl hj
      | cons b bs => exact ⟨b, bs, rfl⟩
    rcases hf1 : List.find? lxgwRegularPred (a :: as) with _ | f <;>
      rcases hf2 : List.find? jbRegularPred (b :: bs) with _ | g
    · exact ⟨((a, true), (b, true)),
        by simp [resolveRegularFonts, selectWithFallback, hf1, hf2]⟩
    · exact ⟨((a, true), (g, false)),
        by simp [resolveRegularFonts, selectWithFallback, hf1, hf2]⟩
    · exact ⟨((f, false), (b, true)),
        by simp [resolveRegularFonts, selectWithFallback, hf1, hf2]⟩
    · exact ⟨((f, false), (g, false)),
        by simp [resolveRegularFonts, selectWithFallback, hf1, hf2]⟩

/-- Witness for C6: a list with no Regular match falls back to its first
element with a warning, and two empty lists make the run fail. -/
theorem regular_fallback_and_empty_failure_witness :
    selectWithFallback [⟨"LXGWWenKaiMono-Light.ttf", "lxgw"⟩] lxgwRegularPred
      = (some ⟨"LXGWWenKaiMono-Light.ttf", "lxgw"⟩, true) ∧
    resolveRegularFonts ([] : List FontFile) []
      = .error (.runtimeError "Could not find required fonts for merging") := by
  constructor
  · have h := (regular_fallback_and_empty_failure
      [⟨"LXGWWenKaiMono-Light.ttf", "lxgw"⟩] []).1 (by decide) (by simp)
    simpa using h
  · exact (regular_fallback_and_empty_failure [] []).2.2.1 (Or.inl rfl)

/-- C8: the entry point exits with code 0 (and prints nothing to stderr)
exactly when `main()` completes successfully; every error `main()` raises is
caught by the single top-level handler, its message is written to the error
stream, and the process exits with code 1. -/
theorem entry_point_exit_contract :
    entryPoint (.ok ()) = (0, none) ∧
    (∀ e : Err, entryPoint (.error e) = (1, some ("\nError: " ++ errMsg e))) ∧
    (∀ r : Except Err Unit, (entryPoint r).1 = 0 ↔ r = .ok ()) := by
  refine ⟨rfl, fun e => rfl, fun r => ?_⟩
  cases r <;> simp [entryPoint]

/-- C7: `find_fonts` returns exactly the file paths under the directory
(searched recursively) whose names match the pattern: the result is the
filter of all files by the glob, its length counts the matching files, and
membership holds exactly for matching files. -/
theorem find_fonts_exactly_matches (d : Dir) (pat : String) :
    find_fonts d pat = (allFiles d).filter (fun n => globMatchStr pat n) ∧
    (find_fonts d pat).length = (allFiles d).countP (fun n => globMatchStr pat n) ∧
    (∀ n, n ∈ find_fonts d pat ↔ n ∈ allFiles d ∧ globMatchStr pat n = true) := by
  refine ⟨rglob_eq_filter pat d, ?_, fun n => ?_⟩
  · rw [find_fonts, rglob_eq_filter, List.countP_eq_length_filter]
  · rw [find_fonts, rglob_eq_filter]
    simp [List.mem_filter]
